import Mathlib

/-!
Verification of the pycache key-value caching engine.

This file gives a shallow embedding of the parts of the program that the
claims speak about:

* `Entry` / `Store` and the `InMemory` adapter (src/pycache/adapters/InMemory.py);
* `Row` / `Table` / `DbState` and the `SQLite` adapter, including its
  upsert, expiry filters and transaction verbs (src/pycache/adapters/SQLite.py);
* the `Session` layer: `set_expire` validation and the `with_transaction`
  wrapper (src/pycache/py_cache.py);
* the single-consumer executor queue of the SQLite adapter as a small-step
  state machine (`ExecutorStep`).

Timestamps and TTLs are modelled as integer seconds.  Python exceptions are
modelled with the `PyErr` type; a fallible operation returns its state
together with `Option PyErr` (the state is kept even on error, because the
Python code mutates shared state in place before an exception propagates).
-/

namespace Pycache

/-- A Python exception, as far as the claims need to distinguish them. -/
inductive PyErr where
  | valueError
  | typeError
  | attributeError
  | notImplementedError
  | operationalError
  | simulatedError
deriving DecidableEq, Repr

/-- One stored record of the in-memory backend: the dict
`{value, created_at, expires_at, ttl}` built in `InMemory.set`. -/
structure Entry where
  value : String
  created_at : Int
  expires_at : Option Int
  ttl : Option Int
deriving DecidableEq, Repr

/-- The in-memory backend's shared mapping `_shared_db`, keyed by string. -/
abbrev Store := List (String × Entry)

/-- An argument passed where the adapter expects a `Datatype`: either a real
datatype wrapper carrying `.value`, or some other object on which the
attribute access `key_values[key].value` raises `AttributeError`. -/
inductive PyObj where
  | datatype (v : String)
  | plain
deriving DecidableEq, Repr

/-- Attribute access `obj.value`: succeeds only on a `Datatype`. -/
def PyObj.value_attr : PyObj → Option String
  | .datatype v => some v
  | .plain => none

namespace InMemory

/-- `self._shared_db.get(key)` — first binding of the key, if any. -/
def lookup : Store → String → Option Entry
  | [], _ => none
  | (k', e) :: rest, k => if k' = k then some e else lookup rest k

/-- `InMemory._is_expired`:
`entry["expires_at"] and datetime.now(timezone.utc) > entry["expires_at"]`. -/
def is_expired (e : Entry) (now : Int) : Bool :=
  match e.expires_at with
  | some t => now > t
  | none => false

/-- `InMemory.to_value` is overridden to the identity (no serialization). -/
def to_value (data : String) : String := data

/-- `InMemory.get`: return the value unless the entry is missing or expired. -/
def get (st : Store) (now : Int) (k : String) : Option String :=
  match lookup st k with
  | some e => if is_expired e now then none else some (to_value e.value)
  | none => none

/-- The entry written by `InMemory.set` over an existing entry: the value and
`created_at` are replaced, and `expires_at` is recomputed from the entry's
stored `ttl` (or cleared when there is no `ttl`). -/
def overwriteEntry (e : Entry) (now : Int) (v : String) : Entry :=
  ⟨v, now, e.ttl.map (fun n => now + n), e.ttl⟩

/-- The entry written by `InMemory.set` for a fresh key. -/
def freshEntry (now : Int) (v : String) : Entry :=
  ⟨v, now, none, none⟩

/-- The store mutation performed by `InMemory.set`. -/
def setStore : Store → Int → String → String → Store
  | [], now, k, v => [(k, freshEntry now v)]
  | (k', e) :: rest, now, k, v =>
    if k' = k then (k, overwriteEntry e now v) :: rest
    else (k', e) :: setStore rest now k v

/-- `InMemory.set`: upsert the entry, return 1. -/
def set (st : Store) (now : Int) (k : String) (v : String) : Store × Int :=
  (setStore st now k v, 1)

/-- `InMemory.exists`: present and not expired. -/
def exists? (st : Store) (now : Int) (k : String) : Bool :=
  match lookup st k with
  | some e => !is_expired e now
  | none => false

/-- `InMemory.batch_get`: collect the found, unexpired keys in request order;
missing and expired keys are simply absent from the result. -/
def batch_get (st : Store) (now : Int) (ks : List String) : List (String × String) :=
  ks.filterMap fun k =>
    match lookup st k with
    | some e => if is_expired e now then none else some (k, to_value e.value)
    | none => none

/-- Loop body sequence of `InMemory.batch_set`: writes are applied one key at
a time in request order; accessing `.value` on a non-datatype raises, which
aborts the remaining writes (there is no per-key exception handling), while
the writes already applied stay in the shared store. -/
def batch_setAux : Store → Int → List (String × PyObj) → Nat → Store × Except PyErr Nat
  | st, _, [], count => (st, .ok count)
  | st, now, (k, obj) :: rest, count =>
    match obj.value_attr with
    | none => (st, .error .attributeError)
    | some v => batch_setAux (setStore st now k v) now rest (count + 1)

/-- `InMemory.batch_set`. -/
def batch_set (st : Store) (now : Int) (kvs : List (String × PyObj)) :
    Store × Except PyErr Nat :=
  batch_setAux st now kvs 0

/-- `InMemory.delete`: remove the binding if it is physically present,
regardless of expiry, and report how many bindings were removed. -/
def deleteStore : Store → String → Store × Nat
  | [], _ => ([], 0)
  | (k', e) :: rest, k =>
    if k' = k then (rest, 1)
    else
      let r := deleteStore rest k
      ((k', e) :: r.1, r.2)

/-- `InMemory.delete`. -/
def delete (st : Store) (k : String) : Store × Nat :=
  deleteStore st k

/-- `InMemory.keys`: snapshot the key set, then re-check each key's entry;
a key is kept when its entry exists and `not expires_at or now <= expires_at`. -/
def keys (st : Store) (now : Int) : List String :=
  (st.map Prod.fst).filter fun k =>
    match lookup st k with
    | some e =>
      match e.expires_at with
      | none => true
      | some t => decide (now ≤ t)
    | none => false

/-- `InMemory.set_expire`: set `expires_at = now + ttl` and remember `ttl`;
0 when the key is absent, 1 when applied. -/
def set_expireStore : Store → Int → String → Int → Store × Nat
  | [], _, _, _ => ([], 0)
  | (k', e) :: rest, now, k, ttl =>
    if k' = k then ((k, ⟨e.value, e.created_at, some (now + ttl), some ttl⟩) :: rest, 1)
    else
      let r := set_expireStore rest now k ttl
      ((k', e) :: r.1, r.2)

/-- `InMemory.set_expire`. -/
def set_expire (st : Store) (now : Int) (k : String) (ttl : Int) : Store × Nat :=
  set_expireStore st now k ttl

/-- `InMemory.get_expire`: `None` when the key is missing, has no
`expires_at`, or is already expired; otherwise the clamped remaining time
`max(0, expires_at - now)`. -/
def get_expire (st : Store) (now : Int) (k : String) : Option Int :=
  match lookup st k with
  | some e =>
    match e.expires_at with
    | some t => if now > t then none else some (max 0 (t - now))
    | none => none
  | none => none

end InMemory

/-- Modelled from the spec: the value (de)serialization codec for opaque
payloads (`pickle.dumps` in `Adapter.to_bytes`) is out of scope of the core
(§1) and is consumed as a faithful codec; it is represented here as the
encoding of a string value into its character stream. -/
def pickle_dumps (v : String) : List Char := v.toList

/-- Modelled from the spec: inverse codec direction (`pickle.loads` in
`Adapter.to_value`). -/
def pickle_loads (b : List Char) : String := String.mk b

/-- One row of the SQLite backend's table:
`(id, key, value BLOB, created_at, expires_at NULL, ttl NULL)`. -/
structure Row where
  id : Nat
  key : String
  value : List Char
  created_at : Int
  expires_at : Option Int
  ttl : Option Int
deriving DecidableEq, Repr

/-- The SQLite backend's table, together with the engine's autoincrement
counter and `last_insert_rowid()` register. -/
structure Table where
  rows : List Row
  next_id : Nat
  last_rowid : Nat
deriving DecidableEq, Repr

namespace SQLite

/-- `Adapter.to_bytes`, inherited by the SQLite adapter (pickle). -/
def to_bytes (data : String) : List Char := pickle_dumps data

/-- `Adapter.to_value`, inherited by the SQLite adapter (pickle). -/
def to_value (data : List Char) : String := pickle_loads data

/-- The row-liveness filter used by `get`/`batch_get`/`exists`/`keys`:
`expires_at IS NULL OR expires_at > CURRENT_TIMESTAMP`. -/
def live (r : Row) (now : Int) : Bool :=
  match r.expires_at with
  | none => true
  | some t => now < t

/-- `SQLite.get`: `SELECT value WHERE key = ? AND (live)` and decode. -/
def get (tbl : Table) (now : Int) (k : String) : Option String :=
  match tbl.rows.find? (fun r => r.key = k && live r now) with
  | some r => some (to_value r.value)
  | none => none

/-- The `ON CONFLICT(key) DO UPDATE` row of `SQLite.set`: new value, fresh
`created_at`, and `expires_at` recomputed from the stored `ttl` column via
`DATETIME(CURRENT_TIMESTAMP, '+' || ttl || ' seconds')` (NULL when `ttl`
is NULL). -/
def upsertRow (r : Row) (now : Int) (v : String) : Row :=
  ⟨r.id, r.key, to_bytes v, now, r.ttl.map (fun n => now + n), r.ttl⟩

/-- `SQLite.set`: upsert by unique key, then read `last_insert_rowid()`.
A conflicting update leaves the rowid register unchanged; a fresh insert
assigns the next autoincrement id and stores it in the register. -/
def set (tbl : Table) (now : Int) (k : String) (v : String) : Table × Nat :=
  if tbl.rows.any (fun r => r.key = k) then
    let rows := tbl.rows.map fun r => if r.key = k then upsertRow r now v else r
    (⟨rows, tbl.next_id, tbl.last_rowid⟩, tbl.last_rowid)
  else
    let rows := tbl.rows ++ [⟨tbl.next_id, k, to_bytes v, now, none, none⟩]
    (⟨rows, tbl.next_id + 1, tbl.next_id⟩, tbl.next_id)

/-- `SQLite.exists`: `SELECT 1 WHERE key = ? AND (live)`. -/
def exists? (tbl : Table) (now : Int) (k : String) : Bool :=
  (tbl.rows.find? (fun r => r.key = k && live r now)).isSome

/-- `SQLite.batch_get`: `SELECT key, value WHERE key IN (...) AND (live)`,
returned as a key → value mapping. -/
def batch_get (tbl : Table) (now : Int) (ks : List String) : List (String × String) :=
  (tbl.rows.filter fun r => decide (r.key ∈ ks) && live r now).map
    fun r => (r.key, to_value r.value)

/-- `SQLite.keys`: `SELECT key WHERE (live)`. -/
def keys (tbl : Table) (now : Int) : List String :=
  (tbl.rows.filter fun r => live r now).map Row.key

/-- `SQLite.get_expire`: `SELECT ttl WHERE key = ?` — no liveness filter,
and it is the stored `ttl` column that is returned. -/
def get_expire (tbl : Table) (k : String) : Option Int :=
  match tbl.rows.find? (fun r => r.key = k) with
  | some r => r.ttl
  | none => none

/-- `SQLite.set_expire`: `UPDATE ... SET expires_at = now + ttl, ttl = ttl
WHERE key = ?`; returns the number of rows updated. -/
def set_expire (tbl : Table) (now : Int) (k : String) (ttl : Int) : Table × Nat :=
  if tbl.rows.any (fun r => r.key = k) then
    let rows := tbl.rows.map fun r =>
      if r.key = k then ⟨r.id, r.key, r.value, r.created_at, some (now + ttl), some ttl⟩ else r
    (⟨rows, tbl.next_id, tbl.last_rowid⟩, (tbl.rows.filter fun r => r.key = k).length)
  else (tbl, 0)

/-- `SQLite.delete`: `DELETE WHERE key = ?`; returns the rowcount. -/
def delete (tbl : Table) (k : String) : Table × Nat :=
  (⟨tbl.rows.filter (fun r => !(r.key = k : Bool)), tbl.next_id, tbl.last_rowid⟩,
    (tbl.rows.filter fun r => r.key = k).length)

/-- The upsert row written by `SQLite.batch_set`'s statement: on conflict
only `value` is replaced (`created_at`, `expires_at` and `ttl` are left as
they are — unlike `set`'s statement). -/
def batchUpsertRow (r : Row) (v : String) : Row :=
  ⟨r.id, r.key, to_bytes v, r.created_at, r.expires_at, r.ttl⟩

/-- One parameter pair of `SQLite.batch_set`'s `executemany` applied to the
table: update on key conflict, plain insert otherwise. -/
def applyBatchRow (tbl : Table) (now : Int) (k v : String) : Table :=
  if tbl.rows.any (fun r => r.key = k) then
    ⟨tbl.rows.map fun r => if r.key = k then batchUpsertRow r v else r,
      tbl.next_id, tbl.last_rowid⟩
  else
    ⟨tbl.rows ++ [⟨tbl.next_id, k, to_bytes v, now, none, none⟩],
      tbl.next_id + 1, tbl.next_id⟩

/-- The parameter-list comprehension of `SQLite.batch_set`,
`[(k, self.to_bytes(v.value)) for k, v in key_values.items()]`: the list is
built in full before `executemany` runs, and the attribute access `.value`
on a non-datatype raises `AttributeError` while it is being built — before
any write has been attempted. -/
def extractValues : List (String × PyObj) → Option (List (String × String))
  | [] => some []
  | (k, obj) :: rest =>
    match obj.value_attr with
    | none => none
    | some v => (extractValues rest).map fun l => (k, v) :: l

/-- `SQLite.batch_set`: build the parameter list, run the upserts through
`executemany`, and return the accumulated rowcount.  A failure while the
parameter list is built propagates with the table untouched; there is no
per-key exception handling and no failed-key report. -/
def batch_set (tbl : Table) (now : Int) (kvs : List (String × PyObj)) :
    Table × Except PyErr Nat :=
  match extractValues kvs with
  | none => (tbl, .error .attributeError)
  | some pairs =>
    (pairs.foldl (fun t p => applyBatchRow t now p.1 p.2) tbl, .ok pairs.length)

end SQLite

/-- The SQLite connection state the transaction verbs act on: the current
table contents, the snapshot to which a rollback would return (present
exactly while an engine-level transaction is open), and the adapter's
`_in_transaction` flag. -/
structure DbState where
  table : Table
  txn : Option Table
  in_transaction : Bool
deriving DecidableEq, Repr

namespace SQLite

/-- `SQLite.begin`: sets `_in_transaction = True`, then executes `BEGIN`.
A nested `BEGIN` makes the engine raise `OperationalError` ("cannot start a
transaction within a transaction"); the data is untouched either way. -/
def begin : DbState → DbState × Option PyErr
  | ⟨tbl, some snap, _⟩ => (⟨tbl, some snap, true⟩, some .operationalError)
  | ⟨tbl, none, _⟩ => (⟨tbl, some tbl, true⟩, none)

/-- `SQLite.commit`: clears `_in_transaction` and calls the connection's
`commit()`, which finalizes an open transaction and is a silent no-op when
none is open. -/
def commit : DbState → DbState × Option PyErr
  | ⟨tbl, _, _⟩ => (⟨tbl, none, false⟩, none)

/-- `SQLite.rollback`: clears `_in_transaction` and calls the connection's
`rollback()`, which discards the open transaction's writes and is a silent
no-op when none is open. -/
def rollback : DbState → DbState × Option PyErr
  | ⟨_, some snap, _⟩ => (⟨snap, none, false⟩, none)
  | ⟨tbl, none, _⟩ => (⟨tbl, none, false⟩, none)

/-- `SQLite.set` lifted to the connection state (the upsert mutates the
connection's data whether or not a transaction is open; only the final
per-statement `commit()` is conditional on `_in_transaction`). -/
def dbSet (st : DbState) (now : Int) (k : String) (v : String) : DbState × Nat :=
  let r := set st.table now k v
  (⟨r.1, st.txn, st.in_transaction⟩, r.2)

end SQLite

namespace Session

/-- `Session.set_expire` (py_cache.py): the TTL is validated at the session
layer — `ttl < 1` raises `ValueError("ttl must be atleast 1second")` before
the adapter is called.  The adapter call is abstracted as `backend`, so the
validation result is independent of any backend behaviour. -/
def set_expire {σ : Type} (backend : σ → String → Int → σ × Nat)
    (st : σ) (k : String) (ttl : Int) : Except PyErr (σ × Nat) :=
  if ttl < 1 then .error .valueError
  else .ok (backend st k ttl)

/-- `Session.with_transaction` (py_cache.py): refuse when the adapter does
not advertise transaction support; otherwise `begin()`, run the block, and
`commit()` on success.  The bare `except:` arm calls `rollback()` and then
falls off the end of the generator, so the block's exception is suppressed
rather than re-raised: the wrapper returns normally. -/
def with_transaction (support : Bool) (st : DbState)
    (block : DbState → DbState × Option PyErr) : Except PyErr DbState :=
  if support = false then .error .notImplementedError
  else
    match SQLite.begin st with
    | (_, some e) => .error e
    | (st1, none) =>
      match block st1 with
      | (st2, none) =>
        match SQLite.commit st2 with
        | (st3, none) => .ok st3
        | (st3, some _) => .ok (SQLite.rollback st3).1
      | (st2, some _) => .ok (SQLite.rollback st2).1

end Session

/-- State of the SQLite adapter's executor: the operation queue
(`_operation_queue`) still pending, the operations the single worker thread
(`_run_executor`) has already executed, and the full submission history in
submission order. -/
structure ExecutorState (α : Type) where
  pending : List α
  executed : List α
  submitted : List α
deriving DecidableEq, Repr

/-- One step of the executor system: either some caller submits an operation
payload (`_execute`'s `put_nowait`, appending to the single queue), or the
worker thread dequeues the oldest payload and runs it to completion
(`_run_executor` handles exactly one payload per loop iteration; payloads
never interleave).  The scheduler may interleave these steps arbitrarily. -/
inductive ExecutorStep (α : Type) : ExecutorState α → ExecutorState α → Prop where
  | submit (p : α) (pending executed submitted : List α) :
      ExecutorStep α ⟨pending, executed, submitted⟩
        ⟨pending ++ [p], executed, submitted ++ [p]⟩
  | dequeue (p : α) (pending executed submitted : List α) :
      ExecutorStep α ⟨p :: pending, executed, submitted⟩
        ⟨pending, executed ++ [p], submitted⟩

/-- Executor states reachable from a freshly connected adapter (empty queue,
nothing executed). -/
def ExecutorReachable {α : Type} (s : ExecutorState α) : Prop :=
  Relation.ReflTransGen (ExecutorStep α) ⟨[], [], []⟩ s

/-! ## Helper lemmas (shared) -/

theorem InMemory.lookup_setStore_of_found (st : Store) (now : Int) (k v : String)
    (e : Entry) (h : InMemory.lookup st k = some e) :
    InMemory.lookup (InMemory.setStore st now k v) k
      = some (InMemory.overwriteEntry e now v) := by
  induction st with
  | nil => simp [InMemory.lookup] at h
  | cons p rest ih =>
    obtain ⟨k', e'⟩ := p
    by_cases hk : k' = k
    · subst hk
      simp [InMemory.lookup] at h
      subst h
      simp [InMemory.setStore, InMemory.lookup]
    · simp [InMemory.lookup, hk] at h
      simp [InMemory.setStore, InMemory.lookup, hk, ih h]

theorem InMemory.lookup_setStore_of_missing (st : Store) (now : Int) (k v : String)
    (h : InMemory.lookup st k = none) :
    InMemory.lookup (InMemory.setStore st now k v) k
      = some (InMemory.freshEntry now v) := by
  induction st with
  | nil => simp [InMemory.setStore, InMemory.lookup]
  | cons p rest ih =>
    obtain ⟨k', e'⟩ := p
    by_cases hk : k' = k
    · subst hk
      simp [InMemory.lookup] at h
    · simp [InMemory.lookup, hk] at h
      simp [InMemory.setStore, InMemory.lookup, hk, ih h]

theorem InMemory.lookup_eq_none_of_not_mem (st : Store) (k : String)
    (h : k ∉ st.map Prod.fst) : InMemory.lookup st k = none := by
  induction st with
  | nil => simp [InMemory.lookup]
  | cons p rest ih =>
    obtain ⟨k', e'⟩ := p
    rw [List.map_cons, List.mem_cons] at h
    push_neg at h
    simp [InMemory.lookup, Ne.symm h.1, ih h.2]

theorem SQLite.find?_map_upsert (rows : List Row) (now : Int) (k v : String) (r : Row)
    (h : rows.find? (fun r' => r'.key = k) = some r) :
    (rows.map fun r' => if r'.key = k then SQLite.upsertRow r' now v else r').find?
      (fun r' => r'.key = k) = some (SQLite.upsertRow r now v) := by
  induction rows with
  | nil => simp [List.find?] at h
  | cons hd tl ih =>
    simp only [List.map_cons]
    by_cases hhd : hd.key = k
    · rw [List.find?_cons_of_pos _ (by simpa using hhd)] at h
      injection h with h
      subst h
      rw [if_pos hhd, List.find?_cons_of_pos _ (by simp [SQLite.upsertRow, hhd])]
    · rw [List.find?_cons_of_neg _ (by simpa using hhd)] at h
      rw [if_neg hhd, List.find?_cons_of_neg _ (by simpa using hhd)]
      exact ih h

/-- The codec round trip: decoding an encoded value gives the value back. -/
theorem pickle_roundtrip (v : String) : pickle_loads (pickle_dumps v) = v := rfl

theorem SQLite.to_value_to_bytes (v : String) :
    SQLite.to_value (SQLite.to_bytes v) = v := rfl

/-! ## Claim C2 -/

/-- Claim C2 counterexample: with the in-memory backend, overwriting the key
`k` — stored at time 0 with value `old`, `ttl = 5` and `expires_at = 5` — by
a plain `set` at time 10 does NOT clear the TTL as the claim states: the
overwritten entry has `expires_at = some 15` (recomputed from the stored
`ttl`), not `none`. -/
theorem claim_C2_counterexample :
    InMemory.lookup (InMemory.set [("k", ⟨"old", 0, some 5, some 5⟩)] 10 "k" "new").1 "k"
      = some ⟨"new", 10, some 15, some 5⟩
    ∧ (InMemory.lookup (InMemory.set [("k", ⟨"old", 0, some 5, some 5⟩)] 10 "k" "new").1
        "k").map Entry.expires_at ≠ some none := by
  constructor
  · rfl
  · intro h
    simp [InMemory.set, InMemory.setStore, InMemory.lookup, InMemory.overwriteEntry] at h

/-- Claim C2, amended: for every key that already holds an entry, a plain
`set(key, value)` recomputes `expires_at` from the previously stored `ttl`
column at the new write time on BOTH backends — the in-memory backend also
preserves the TTL cadence (it clears `expires_at` only when no `ttl` is
stored), exactly like the embedded-database backend's upsert. -/
theorem claim_C2_overwrite_recomputes_ttl :
    (∀ (st : Store) (now : Int) (k v : String) (e : Entry),
      InMemory.lookup st k = some e →
      InMemory.lookup (InMemory.set st now k v).1 k
        = some ⟨v, now, e.ttl.map (fun n => now + n), e.ttl⟩)
    ∧ (∀ (tbl : Table) (now : Int) (k v : String) (r : Row),
      tbl.rows.find? (fun r' => r'.key = k) = some r →
      (SQLite.set tbl now k v).1.rows.find? (fun r' => r'.key = k)
        = some ⟨r.id, r.key, SQLite.to_bytes v, now, r.ttl.map (fun n => now + n), r.ttl⟩) := by
  constructor
  · intro st now k v e h
    exact InMemory.lookup_setStore_of_found st now k v e h
  · intro tbl now k v r h
    have hmem : r ∈ tbl.rows := List.mem_of_find?_eq_some h
    have hkey : r.key = k := by
      have := List.find?_some h
      simpa using this
    have hany : tbl.rows.any (fun r' => r'.key = k) = true := by
      rw [List.any_eq_true]
      exact ⟨r, hmem, by simpa using hkey⟩
    simp only [SQLite.set, hany, if_true]
    exact SQLite.find?_map_upsert tbl.rows now k v r h

/-- Witness for the amended C2 at a concrete store and table. -/
theorem claim_C2_overwrite_recomputes_ttl_witness :
    (InMemory.lookup [("k", ⟨"old", 0, some 5, some 5⟩)] "k" = some ⟨"old", 0, some 5, some 5⟩
      ∧ InMemory.lookup (InMemory.set [("k", ⟨"old", 0, some 5, some 5⟩)] 10 "k" "w").1 "k"
          = some ⟨"w", 10, (some 5).map (fun n => 10 + n), some 5⟩)
    ∧ ((⟨[⟨1, "k", [], 0, some 5, some 5⟩], 2, 1⟩ : Table).rows.find? (fun r' => r'.key = "k")
          = some ⟨1, "k", [], 0, some 5, some 5⟩
      ∧ (SQLite.set ⟨[⟨1, "k", [], 0, some 5, some 5⟩], 2, 1⟩ 10 "k" "w").1.rows.find?
          (fun r' => r'.key = "k")
          = some ⟨1, "k", SQLite.to_bytes "w", 10, (some 5).map (fun n => 10 + n), some 5⟩) :=
  ⟨⟨by decide,
    claim_C2_overwrite_recomputes_ttl.1 [("k", ⟨"old", 0, some 5, some 5⟩)] 10 "k" "w"
      ⟨"old", 0, some 5, some 5⟩ (by decide)⟩,
   ⟨by decide,
    claim_C2_overwrite_recomputes_ttl.2 ⟨[⟨1, "k", [], 0, some 5, some 5⟩], 2, 1⟩ 10 "k" "w"
      ⟨1, "k", [], 0, some 5, some 5⟩ (by decide)⟩⟩

/-! ## Claim C3 -/

/-- Claim C3 counterexample: the embedded-database backend's `get_expire`
does not return the remaining time and does not treat expired keys as
absent.  For the row `k` with `ttl = 5` and `expires_at = 5`, queried at
`now = 100` (long after expiry), the claim demands `none` (absent, since the
key is expired) — the code returns the stored `ttl` column, `some 5`, which
is also not `max 0 (expires_at - now) = 0`. -/
theorem claim_C3_counterexample :
    SQLite.get_expire ⟨[⟨1, "k", [], 0, some 5, some 5⟩], 2, 1⟩ "k" = some 5
    ∧ SQLite.get_expire ⟨[⟨1, "k", [], 0, some 5, some 5⟩], 2, 1⟩ "k" ≠ none
    ∧ SQLite.get_expire ⟨[⟨1, "k", [], 0, some 5, some 5⟩], 2, 1⟩ "k"
        ≠ some (max 0 (5 - 100)) := by
  refine ⟨rfl, ?_, ?_⟩ <;> decide

/-- Claim C3, amended: on the in-memory backend, `get_expire(key)` is absent
when the key is missing, has no TTL, or is already expired, and otherwise
returns `max(0, expires_at - now)`; the embedded-database backend's
`get_expire` instead returns the stored `ttl` column whenever a row for the
key physically exists — even an expired one — and is absent only when the
key is missing or its `ttl` column is null. -/
theorem claim_C3_get_expire_behaviour :
    (∀ (st : Store) (now : Int) (k : String),
      (InMemory.lookup st k = none → InMemory.get_expire st now k = none)
      ∧ (∀ e, InMemory.lookup st k = some e → e.expires_at = none →
          InMemory.get_expire st now k = none)
      ∧ (∀ e t, InMemory.lookup st k = some e → e.expires_at = some t → t < now →
          InMemory.get_expire st now k = none)
      ∧ (∀ e t, InMemory.lookup st k = some e → e.expires_at = some t → now ≤ t →
          InMemory.get_expire st now k = some (max 0 (t - now))))
    ∧ (∀ (tbl : Table) (k : String),
      (tbl.rows.find? (fun r' => r'.key = k) = none → SQLite.get_expire tbl k = none)
      ∧ (∀ r, tbl.rows.find? (fun r' => r'.key = k) = some r →
          SQLite.get_expire tbl k = r.ttl)) := by
  constructor
  · intro st now k
    refine ⟨?_, ?_, ?_, ?_⟩
    · intro h
      simp [InMemory.get_expire, h]
    · intro e h he
      simp [InMemory.get_expire, h, he]
    · intro e t h he ht
      simp [InMemory.get_expire, h, he, ht]
    · intro e t h he ht
      simp [InMemory.get_expire, h, he, not_lt_of_le ht]
  · intro tbl k
    constructor
    · intro h
      simp [SQLite.get_expire, h]
    · intro r h
      simp [SQLite.get_expire, h]

/-- Witness for the amended C3: a live entry with 4 seconds remaining on the
in-memory backend, and an expired row on the embedded-database backend whose
stored `ttl` is still returned. -/
theorem claim_C3_get_expire_behaviour_witness :
    (InMemory.lookup [("k", ⟨"v", 0, some 5, some 5⟩)] "k" = some ⟨"v", 0, some 5, some 5⟩
      ∧ (1 : Int) ≤ 5
      ∧ InMemory.get_expire [("k", ⟨"v", 0, some 5, some 5⟩)] 1 "k" = some (max 0 (5 - 1)))
    ∧ ((⟨[⟨1, "k", [], 0, some 5, some 5⟩], 2, 1⟩ : Table).rows.find? (fun r' => r'.key = "k")
          = some ⟨1, "k", [], 0, some 5, some 5⟩
      ∧ SQLite.get_expire ⟨[⟨1, "k", [], 0, some 5, some 5⟩], 2, 1⟩ "k" = some 5) :=
  ⟨⟨by decide, by decide,
    (claim_C3_get_expire_behaviour.1 [("k", ⟨"v", 0, some 5, some 5⟩)] 1 "k").2.2.2
      ⟨"v", 0, some 5, some 5⟩ 5 (by decide) rfl (by decide)⟩,
   ⟨by decide,
    (claim_C3_get_expire_behaviour.2 ⟨[⟨1, "k", [], 0, some 5, some 5⟩], 2, 1⟩ "k").2
      ⟨1, "k", [], 0, some 5, some 5⟩ (by decide)⟩⟩

/-! ## Claim C4 -/

/-- Claim C4 counterexample: on a connection with no open transaction,
`commit()` and `rollback()` do NOT raise — both return without error (the
model's `none` in the second component), because the underlying
`Connection.commit`/`Connection.rollback` are silent no-ops outside a
transaction.  The claim's "calling commit() or rollback() when no
transaction is open raises an error" is therefore false. -/
theorem claim_C4_counterexample :
    (SQLite.commit ⟨⟨[], 1, 0⟩, none, false⟩).2 = none
    ∧ (SQLite.rollback ⟨⟨[], 1, 0⟩, none, false⟩).2 = none
    ∧ (SQLite.commit ⟨⟨[], 1, 0⟩, none, false⟩).1.table = ⟨[], 1, 0⟩
    ∧ (SQLite.rollback ⟨⟨[], 1, 0⟩, none, false⟩).1.table = ⟨[], 1, 0⟩ := by
  refine ⟨rfl, rfl, rfl, rfl⟩

/-- Claim C4, amended: `begin()` while a transaction is already open raises
an error (the engine's "cannot start a transaction within a transaction")
and leaves the stored data unchanged; `commit()` and `rollback()` with no
open transaction are silent no-ops — they raise no error and also leave the
stored data unchanged. -/
theorem claim_C4_transaction_state_errors :
    (∀ (st : DbState) (snap : Table), st.txn = some snap →
      (SQLite.begin st).2 = some PyErr.operationalError
      ∧ (SQLite.begin st).1.table = st.table)
    ∧ (∀ st : DbState, st.txn = none →
      (SQLite.commit st).2 = none ∧ (SQLite.commit st).1.table = st.table
      ∧ (SQLite.rollback st).2 = none ∧ (SQLite.rollback st).1.table = st.table) := by
  constructor
  · intro st snap h
    obtain ⟨tbl, txn, flag⟩ := st
    cases txn with
    | none => simp at h
    | some s => exact ⟨rfl, rfl⟩
  · intro st h
    obtain ⟨tbl, txn, flag⟩ := st
    cases txn with
    | none => exact ⟨rfl, rfl, rfl, rfl⟩
    | some s => simp at h

/-- Witness for the amended C4 at concrete connection states. -/
theorem claim_C4_transaction_state_errors_witness :
    ((⟨⟨[], 1, 0⟩, some ⟨[], 1, 0⟩, true⟩ : DbState).txn = some ⟨[], 1, 0⟩
      ∧ (SQLite.begin ⟨⟨[], 1, 0⟩, some ⟨[], 1, 0⟩, true⟩).2 = some PyErr.operationalError
      ∧ (SQLite.begin ⟨⟨[], 1, 0⟩, some ⟨[], 1, 0⟩, true⟩).1.table = ⟨[], 1, 0⟩)
    ∧ ((⟨⟨[], 1, 0⟩, none, false⟩ : DbState).txn = none
      ∧ (SQLite.commit ⟨⟨[], 1, 0⟩, none, false⟩).2 = none) :=
  ⟨⟨rfl,
    (claim_C4_transaction_state_errors.1 ⟨⟨[], 1, 0⟩, some ⟨[], 1, 0⟩, true⟩ ⟨[], 1, 0⟩ rfl).1,
    (claim_C4_transaction_state_errors.1 ⟨⟨[], 1, 0⟩, some ⟨[], 1, 0⟩, true⟩ ⟨[], 1, 0⟩ rfl).2⟩,
   ⟨rfl, (claim_C4_transaction_state_errors.2 ⟨⟨[], 1, 0⟩, none, false⟩ rfl).1⟩⟩

/-! ## Claim C1 -/

/-- Claim C1 counterexample: a transaction block that writes `k1` and then
raises.  The wrapper rolls the adapter back, but the bare `except:` arm of
`with_transaction` never re-raises, so the wrapper completes normally
(`.ok`, with the write undone) instead of propagating the block's
exception — in particular the result is not `.error .simulatedError` as the
claim requires. -/
theorem claim_C1_counterexample :
    Session.with_transaction true
        ⟨⟨[⟨1, "k1", SQLite.to_bytes "initial", 0, none, none⟩], 2, 1⟩, none, false⟩
        (fun s => ((SQLite.dbSet s 1 "k1" "updated").1, some PyErr.simulatedError))
      = .ok ⟨⟨[⟨1, "k1", SQLite.to_bytes "initial", 0, none, none⟩], 2, 1⟩, none, false⟩
    ∧ (Session.with_transaction true
        ⟨⟨[⟨1, "k1", SQLite.to_bytes "initial", 0, none, none⟩], 2, 1⟩, none, false⟩
        (fun s => ((SQLite.dbSet s 1 "k1" "updated").1, some PyErr.simulatedError))).isOk
      = true := ⟨rfl, rfl⟩

/-- Claim C1, amended: for every session and every exception raised inside a
`Session.with_transaction` block, the wrapper calls `rollback()` on the
adapter and then SUPPRESSES the exception: the wrapper returns normally with
the rolled-back adapter state, and the caller never observes the block's
exception. -/
theorem claim_C1_rollback_suppresses (st : DbState)
    (block : DbState → DbState × Option PyErr) (st2 : DbState) (e : PyErr)
    (hopen : st.txn = none)
    (hblock : block (SQLite.begin st).1 = (st2, some e)) :
    Session.with_transaction true st block = .ok (SQLite.rollback st2).1 := by
  obtain ⟨tbl, txn, flag⟩ := st
  cases txn with
  | some s => simp at hopen
  | none =>
    simp only [Session.with_transaction, SQLite.begin] at hblock ⊢
    rw [hblock]
    simp

/-- Witness for the amended C1: a concrete store, block and exception; the
wrapper returns `.ok` of the rolled-back state. -/
theorem claim_C1_rollback_suppresses_witness :
    ((⟨⟨[⟨1, "k1", SQLite.to_bytes "initial", 0, none, none⟩], 2, 1⟩, none, false⟩ :
        DbState).txn = none
      ∧ (fun s => ((SQLite.dbSet s 1 "k1" "updated").1, some PyErr.simulatedError))
          (SQLite.begin
            ⟨⟨[⟨1, "k1", SQLite.to_bytes "initial", 0, none, none⟩], 2, 1⟩, none, false⟩).1
        = (⟨⟨[⟨1, "k1", SQLite.to_bytes "updated", 1, none, none⟩], 2, 1⟩,
            some ⟨[⟨1, "k1", SQLite.to_bytes "initial", 0, none, none⟩], 2, 1⟩, true⟩,
           some PyErr.simulatedError))
    ∧ Session.with_transaction true
        ⟨⟨[⟨1, "k1", SQLite.to_bytes "initial", 0, none, none⟩], 2, 1⟩, none, false⟩
        (fun s => ((SQLite.dbSet s 1 "k1" "updated").1, some PyErr.simulatedError))
      = .ok (SQLite.rollback
          ⟨⟨[⟨1, "k1", SQLite.to_bytes "updated", 1, none, none⟩], 2, 1⟩,
            some ⟨[⟨1, "k1", SQLite.to_bytes "initial", 0, none, none⟩], 2, 1⟩, true⟩).1 :=
  ⟨⟨rfl, rfl⟩,
   claim_C1_rollback_suppresses
     ⟨⟨[⟨1, "k1", SQLite.to_bytes "initial", 0, none, none⟩], 2, 1⟩, none, false⟩
     (fun s => ((SQLite.dbSet s 1 "k1" "updated").1, some PyErr.simulatedError))
     ⟨⟨[⟨1, "k1", SQLite.to_bytes "updated", 1, none, none⟩], 2, 1⟩,
       some ⟨[⟨1, "k1", SQLite.to_bytes "initial", 0, none, none⟩], 2, 1⟩, true⟩
     PyErr.simulatedError rfl rfl⟩

/-! ## Claim C5 -/

/-- Claim C5: an entry whose `expires_at` lies strictly in the past is
invisible to `get`, `exists`, `batch_get` and `keys` on both backends, even
though it is still physically present: `get` is absent, `exists` is false,
`batch_get` omits the key for every request list, and `keys` never includes
it. -/
theorem claim_C5_expired_entries_invisible :
    (∀ (st : Store) (now : Int) (k : String) (e : Entry) (t : Int) (ks : List String),
      InMemory.lookup st k = some e → e.expires_at = some t → t < now →
      InMemory.get st now k = none
      ∧ InMemory.exists? st now k = false
      ∧ k ∉ (InMemory.batch_get st now ks).map Prod.fst
      ∧ k ∉ InMemory.keys st now)
    ∧ (∀ (tbl : Table) (now : Int) (k : String) (ks : List String),
      (∀ r ∈ tbl.rows, r.key = k → ∃ t, r.expires_at = some t ∧ t < now) →
      SQLite.get tbl now k = none
      ∧ SQLite.exists? tbl now k = false
      ∧ k ∉ (SQLite.batch_get tbl now ks).map Prod.fst
      ∧ k ∉ SQLite.keys tbl now) := by
  constructor
  · intro st now k e t ks hl he ht
    have hexp : InMemory.is_expired e now = true := by
      simp [InMemory.is_expired, he, ht]
    refine ⟨?_, ?_, ?_, ?_⟩
    · simp [InMemory.get, hl, hexp]
    · simp [InMemory.exists?, hl, hexp]
    · intro hmem
      rw [List.mem_map] at hmem
      obtain ⟨p, hp, hpk⟩ := hmem
      rw [InMemory.batch_get, List.mem_filterMap] at hp
      obtain ⟨k', _, hk'⟩ := hp
      cases hlk : InMemory.lookup st k' with
      | none => simp [hlk] at hk'
      | some e' =>
        by_cases hx : InMemory.is_expired e' now = true
        · simp [hlk, hx] at hk'
        · have hk2 : (if InMemory.is_expired e' now = true
              then (none : Option (String × String))
              else some (k', InMemory.to_value e'.value)) = some p := by
            simpa [hlk] using hk'
          rw [if_neg hx] at hk2
          injection hk2 with hk2
          subst hk2
          simp only [InMemory.to_value] at hpk
          subst hpk
          rw [hl] at hlk
          injection hlk with hlk
          subst hlk
          exact hx hexp
    · intro hmem
      rw [InMemory.keys, List.mem_filter] at hmem
      obtain ⟨-, hpred⟩ := hmem
      simp only [hl, he] at hpred
      simp at hpred
      omega
  · intro tbl now k ks hexp
    have hdead : ∀ r ∈ tbl.rows, r.key = k → SQLite.live r now = false := by
      intro r hr hk
      obtain ⟨t, hsome, ht⟩ := hexp r hr hk
      simp [SQLite.live, hsome]
      omega
    refine ⟨?_, ?_, ?_, ?_⟩
    · rw [SQLite.get]
      have : tbl.rows.find? (fun r => r.key = k && SQLite.live r now) = none := by
        rw [List.find?_eq_none]
        intro r hr
        by_cases hk : r.key = k
        · simp [hk, hdead r hr hk]
        · simp [hk]
      rw [this]
    · rw [SQLite.exists?]
      have : tbl.rows.find? (fun r => r.key = k && SQLite.live r now) = none := by
        rw [List.find?_eq_none]
        intro r hr
        by_cases hk : r.key = k
        · simp [hk, hdead r hr hk]
        · simp [hk]
      rw [this]
      rfl
    · intro hmem
      rw [List.mem_map] at hmem
      obtain ⟨p, hp, hpk⟩ := hmem
      rw [SQLite.batch_get, List.mem_map] at hp
      obtain ⟨r, hr, hrp⟩ := hp
      rw [List.mem_filter] at hr
      obtain ⟨hrrows, hlive⟩ := hr
      subst hrp
      simp only at hpk
      have : SQLite.live r now = true := by
        cases hand : SQLite.live r now
        · rw [hand] at hlive; simp at hlive
        · rfl
      rw [hdead r hrrows hpk] at this
      exact Bool.noConfusion this
    · intro hmem
      rw [SQLite.keys, List.mem_map] at hmem
      obtain ⟨r, hr, hrk⟩ := hmem
      rw [List.mem_filter] at hr
      rw [hdead r hr.1 hrk] at hr
      exact Bool.noConfusion hr.2

/-- Witness for C5: an entry expired at time 5, observed at time 10, on both
backends. -/
theorem claim_C5_expired_entries_invisible_witness :
    (InMemory.lookup [("k", ⟨"v", 0, some 5, some 5⟩)] "k" = some ⟨"v", 0, some 5, some 5⟩
      ∧ (⟨"v", 0, some 5, some 5⟩ : Entry).expires_at = some 5
      ∧ (5 : Int) < 10
      ∧ InMemory.get [("k", ⟨"v", 0, some 5, some 5⟩)] 10 "k" = none
      ∧ InMemory.exists? [("k", ⟨"v", 0, some 5, some 5⟩)] 10 "k" = false
      ∧ "k" ∉ (InMemory.batch_get [("k", ⟨"v", 0, some 5, some 5⟩)] 10 ["k"]).map Prod.fst
      ∧ "k" ∉ InMemory.keys [("k", ⟨"v", 0, some 5, some 5⟩)] 10)
    ∧ ((∀ r ∈ (⟨[⟨1, "k", [], 0, some 5, some 5⟩], 2, 1⟩ : Table).rows, r.key = "k" →
          ∃ t, r.expires_at = some t ∧ t < 10)
      ∧ SQLite.get ⟨[⟨1, "k", [], 0, some 5, some 5⟩], 2, 1⟩ 10 "k" = none
      ∧ SQLite.exists? ⟨[⟨1, "k", [], 0, some 5, some 5⟩], 2, 1⟩ 10 "k" = false
      ∧ "k" ∉ (SQLite.batch_get ⟨[⟨1, "k", [], 0, some 5, some 5⟩], 2, 1⟩ 10 ["k"]).map Prod.fst
      ∧ "k" ∉ SQLite.keys ⟨[⟨1, "k", [], 0, some 5, some 5⟩], 2, 1⟩ 10) := by
  have hmem := claim_C5_expired_entries_invisible.1 [("k", ⟨"v", 0, some 5, some 5⟩)] 10 "k"
    ⟨"v", 0, some 5, some 5⟩ 5 ["k"] (by decide) rfl (by decide)
  have hsql := claim_C5_expired_entries_invisible.2 ⟨[⟨1, "k", [], 0, some 5, some 5⟩], 2, 1⟩
    10 "k" ["k"] (by intro r hr hk; exact ⟨5, by simp at hr; subst hr; exact ⟨rfl, by decide⟩⟩)
  exact ⟨⟨by decide, rfl, by decide, hmem.1, hmem.2.1, hmem.2.2.1, hmem.2.2.2⟩,
         ⟨by intro r hr hk
             simp at hr
             subst hr
             exact ⟨5, rfl, by decide⟩,
          hsql.1, hsql.2.1, hsql.2.2.1, hsql.2.2.2⟩⟩

/-! ## Claim C6 -/

theorem SQLite.get_after_upsert (rows : List Row) (now : Int) (k v : String) (r0 : Row)
    (h : rows.find? (fun r' => r'.key = k) = some r0)
    (hlive : SQLite.live (SQLite.upsertRow r0 now v) now = true) :
    (rows.map fun r' => if r'.key = k then SQLite.upsertRow r' now v else r').find?
      (fun r' => r'.key = k && SQLite.live r' now) = some (SQLite.upsertRow r0 now v) := by
  induction rows with
  | nil => simp [List.find?] at h
  | cons hd tl ih =>
    simp only [List.map_cons]
    by_cases hhd : hd.key = k
    · rw [List.find?_cons_of_pos _ (by simpa using hhd)] at h
      injection h with h
      subst h
      have hkey : (SQLite.upsertRow hd now v).key = k := by simp [SQLite.upsertRow, hhd]
      rw [if_pos hhd, List.find?_cons_of_pos _ (by simp [hkey, hlive])]
    · rw [List.find?_cons_of_neg _ (by simpa using hhd)] at h
      rw [if_neg hhd, List.find?_cons_of_neg _ (by simp [hhd])]
      exact ih h

/-- Claim C6: on both backends, `set(k, v)` immediately followed by `get(k)`
returns `v` (round trip through the backend's serialization), provided any
TTL stored for the key is still positive (no TTL has elapsed). -/
theorem claim_C6_set_get_roundtrip :
    (∀ (st : Store) (now : Int) (k v : String),
      (∀ e n, InMemory.lookup st k = some e → e.ttl = some n → 0 < n) →
      InMemory.get (InMemory.set st now k v).1 now k = some v)
    ∧ (∀ (tbl : Table) (now : Int) (k v : String),
      (∀ r ∈ tbl.rows, r.key = k → ∀ n, r.ttl = some n → 0 < n) →
      SQLite.get (SQLite.set tbl now k v).1 now k = some v) := by
  constructor
  · intro st now k v httl
    cases hl : InMemory.lookup st k with
    | none =>
      have hset := InMemory.lookup_setStore_of_missing st now k v hl
      simp [InMemory.get, InMemory.set, hset, InMemory.freshEntry, InMemory.is_expired,
        InMemory.to_value]
    | some e =>
      have hset := InMemory.lookup_setStore_of_found st now k v e hl
      have hexp : InMemory.is_expired (InMemory.overwriteEntry e now v) now = false := by
        cases hte : e.ttl with
        | none => simp [InMemory.overwriteEntry, InMemory.is_expired, hte]
        | some n =>
          have hn := httl e n hl hte
          simp [InMemory.overwriteEntry, InMemory.is_expired, hte]
          omega
      rw [InMemory.overwriteEntry] at hexp
      simp [InMemory.get, InMemory.set, hset, hexp, InMemory.to_value,
        InMemory.overwriteEntry]
  · intro tbl now k v httl
    by_cases hany : tbl.rows.any (fun r' => r'.key = k) = true
    · obtain ⟨r0, hr0⟩ : ∃ r0, tbl.rows.find? (fun r' => r'.key = k) = some r0 := by
        rw [← Option.isSome_iff_exists, List.find?_isSome]
        simpa using List.any_eq_true.mp hany
      have hr0mem : r0 ∈ tbl.rows := List.mem_of_find?_eq_some hr0
      have hr0key : r0.key = k := by simpa using List.find?_some hr0
      have hlive : SQLite.live (SQLite.upsertRow r0 now v) now = true := by
        cases hte : r0.ttl with
        | none => simp [SQLite.upsertRow, SQLite.live, hte]
        | some n =>
          have hn := httl r0 hr0mem hr0key n hte
          simp [SQLite.upsertRow, SQLite.live, hte]
          omega
      have hfind := SQLite.get_after_upsert tbl.rows now k v r0 hr0 hlive
      simp only [SQLite.set, hany, if_true, SQLite.get, hfind]
      rw [SQLite.upsertRow]
      simp [SQLite.to_value_to_bytes]
    · have hnok : ∀ r ∈ tbl.rows, ¬(r.key = k) := by
        intro r hr hk
        exact hany (List.any_eq_true.mpr ⟨r, hr, by simpa using hk⟩)
      have hnone : tbl.rows.find? (fun r' => r'.key = k && SQLite.live r' now) = none := by
        rw [List.find?_eq_none]
        intro r hr
        simp [hnok r hr]
      simp only [SQLite.set, hany, if_false, Bool.false_eq_true, SQLite.get]
      rw [List.find?_append, hnone, Option.none_or]
      rw [List.find?_cons_of_pos _ (by simp [SQLite.live])]
      simp [SQLite.to_value_to_bytes]

/-- Witness for C6: a fresh write on each backend is immediately readable. -/
theorem claim_C6_set_get_roundtrip_witness :
    ((∀ e n, InMemory.lookup [] "k" = some e → e.ttl = some n → 0 < n)
      ∧ InMemory.get (InMemory.set [] 0 "k" "v").1 0 "k" = some "v")
    ∧ ((∀ r ∈ (⟨[], 1, 0⟩ : Table).rows, r.key = "k" → ∀ n, r.ttl = some n → 0 < n)
      ∧ SQLite.get (SQLite.set ⟨[], 1, 0⟩ 0 "k" "v").1 0 "k" = some "v") :=
  ⟨⟨fun e n h => absurd h (by simp [InMemory.lookup]),
    claim_C6_set_get_roundtrip.1 [] 0 "k" "v"
      (fun e n h => absurd h (by simp [InMemory.lookup]))⟩,
   ⟨fun r hr => absurd hr (by simp),
    claim_C6_set_get_roundtrip.2 ⟨[], 1, 0⟩ 0 "k" "v"
      (fun r hr => absurd hr (by simp))⟩⟩

/-! ## Claim C7 -/

/-- Claim C7: `Session.set_expire` rejects every `ttl < 1` with a
`ValueError` at the session layer.  The adapter is abstracted as an
arbitrary `backend` function and the result is the same error for every
backend, which is exactly the claim that no backend call is attempted and
the key's stored state (value, liveness, prior expiry) is untouched. -/
theorem claim_C7_session_ttl_validation {σ : Type}
    (backend : σ → String → Int → σ × Nat) (st : σ) (k : String) (ttl : Int)
    (h : ttl < 1) :
    Session.set_expire backend st k ttl = .error PyErr.valueError := by
  simp [Session.set_expire, h]

/-- Witness for C7: `ttl = 0` on the in-memory backend's `set_expire`. -/
theorem claim_C7_session_ttl_validation_witness :
    (0 : Int) < 1
    ∧ Session.set_expire (fun (s : Store) (k : String) (t : Int) => InMemory.set_expire s 5 k t)
        [("k", ⟨"v", 0, none, none⟩)] "k" 0 = .error PyErr.valueError :=
  ⟨by decide,
   claim_C7_session_ttl_validation (fun (s : Store) (k : String) (t : Int) =>
     InMemory.set_expire s 5 k t) [("k", ⟨"v", 0, none, none⟩)] "k" 0 (by decide)⟩

/-! ## Claim C8 -/

/-- Claim C8 counterexample: a non-transactional `batch_set` of three keys
where the middle value is not a datatype.  The claim demands that the
failure on `b` not abort the write of `c`, that the success count (2) still
be returned, and that the failed keys be reported; instead the code raises
`AttributeError` at `b`, never writes `c`, and returns no count at all. -/
theorem claim_C8_counterexample :
    InMemory.batch_set [] 0
        [("a", PyObj.datatype "1"), ("b", PyObj.plain), ("c", PyObj.datatype "3")]
      = ([("a", ⟨"1", 0, none, none⟩)], .error PyErr.attributeError)
    ∧ InMemory.lookup (InMemory.batch_set [] 0
        [("a", PyObj.datatype "1"), ("b", PyObj.plain), ("c", PyObj.datatype "3")]).1 "c"
      = none
    ∧ ((InMemory.batch_set [] 0
        [("a", PyObj.datatype "1"), ("b", PyObj.plain), ("c", PyObj.datatype "3")]).2).isOk
      = false := ⟨rfl, rfl, rfl⟩

theorem InMemory.batch_setAux_append_plain (good : List (String × PyObj)) :
    ∀ (st : Store) (now : Int) (k : String) (rest : List (String × PyObj)) (count : Nat),
    (∀ p ∈ good, (p.2.value_attr).isSome = true) →
    InMemory.batch_setAux st now (good ++ (k, PyObj.plain) :: rest) count
      = ((InMemory.batch_setAux st now good count).1, .error PyErr.attributeError) := by
  induction good with
  | nil =>
    intro st now k rest count _
    rfl
  | cons p good' ih =>
    intro st now k rest count hgood
    obtain ⟨k0, obj⟩ := p
    obtain ⟨v, hv⟩ := Option.isSome_iff_exists.mp (hgood (k0, obj) (by simp))
    simp only [List.cons_append, InMemory.batch_setAux, hv]
    exact ih (InMemory.setStore st now k0 v) now k rest (count + 1)
      (fun q hq => hgood q (List.mem_cons_of_mem _ hq))

theorem SQLite.extractValues_eq_none (kvs : List (String × PyObj)) (k : String)
    (h : (k, PyObj.plain) ∈ kvs) : SQLite.extractValues kvs = none := by
  induction kvs with
  | nil => simp at h
  | cons p rest ih =>
    obtain ⟨k', obj⟩ := p
    rw [List.mem_cons] at h
    cases h with
    | inl h =>
      injection h with h1 h2
      subst h2
      simp [SQLite.extractValues, PyObj.value_attr]
    | inr h =>
      cases hv : obj.value_attr with
      | none => simp [SQLite.extractValues, hv]
      | some v => simp [SQLite.extractValues, hv, ih h]

/-- Claim C8, amended: `batch_set` outside a transaction context is NOT
best-effort on either cited backend.  On the in-memory backend the first
failing write raises `AttributeError`, which aborts all remaining writes
while the writes already applied before the failure remain in the store.
On the embedded-database backend the failing `.value` access happens while
the `executemany` parameter list is being built, before any write is
attempted, so the table is left unchanged.  In neither case is a success
count or a failed-key report returned to the caller. -/
theorem claim_C8_batch_set_aborts :
    (∀ (st : Store) (now : Int) (good : List (String × PyObj)) (k : String)
        (rest : List (String × PyObj)),
      (∀ p ∈ good, (p.2.value_attr).isSome = true) →
      InMemory.batch_set st now (good ++ (k, PyObj.plain) :: rest)
        = ((InMemory.batch_set st now good).1, .error PyErr.attributeError))
    ∧ (∀ (tbl : Table) (now : Int) (kvs : List (String × PyObj)) (k : String),
      (k, PyObj.plain) ∈ kvs →
      SQLite.batch_set tbl now kvs = (tbl, .error PyErr.attributeError)) := by
  constructor
  · intro st now good k rest hgood
    exact InMemory.batch_setAux_append_plain good st now k rest 0 hgood
  · intro tbl now kvs k h
    simp [SQLite.batch_set, SQLite.extractValues_eq_none kvs k h]

/-- Witness for the amended C8: the counterexample's batch on the in-memory
backend, and the same non-datatype value on the embedded-database backend
leaving the (empty) table untouched. -/
theorem claim_C8_batch_set_aborts_witness :
    ((∀ p ∈ [("a", PyObj.datatype "1")], ((p.2).value_attr).isSome = true)
      ∧ InMemory.batch_set [] 0
          ([("a", PyObj.datatype "1")] ++ ("b", PyObj.plain) :: [("c", PyObj.datatype "3")])
        = ((InMemory.batch_set [] 0 [("a", PyObj.datatype "1")]).1,
            .error PyErr.attributeError))
    ∧ (("b", PyObj.plain) ∈ [("a", PyObj.datatype "1"), ("b", PyObj.plain)]
      ∧ SQLite.batch_set ⟨[], 1, 0⟩ 0 [("a", PyObj.datatype "1"), ("b", PyObj.plain)]
        = (⟨[], 1, 0⟩, .error PyErr.attributeError)) :=
  ⟨⟨by decide,
    claim_C8_batch_set_aborts.1 [] 0 [("a", PyObj.datatype "1")] "b"
      [("c", PyObj.datatype "3")] (by decide)⟩,
   ⟨by decide,
    claim_C8_batch_set_aborts.2 ⟨[], 1, 0⟩ 0
      [("a", PyObj.datatype "1"), ("b", PyObj.plain)] "b" (by decide)⟩⟩

/-! ## Claim C9 -/

/-- Claim C9: in every reachable state of the executor system — under any
interleaving of caller submissions and worker steps — the sequence of
operations the single worker thread has executed, followed by the queue
contents, equals the full submission history in submission order.  The
executed sequence is therefore always an initial segment of the submission
order: operations execute in FIFO submission order, one at a time, giving a
total order over all operations of one adapter instance (each `set`'s
upsert-then-read-last-insert-rowid body is one queue payload, so it is never
interleaved with another caller's statements). -/
theorem claim_C9_fifo_execution {α : Type} (s : ExecutorState α)
    (h : ExecutorReachable s) : s.executed ++ s.pending = s.submitted := by
  induction h with
  | refl => rfl
  | tail _ step ih =>
    cases step with
    | submit p pending executed submitted =>
      simp only at ih ⊢
      rw [← List.append_assoc, ih]
    | dequeue p pending executed submitted =>
      simp only at ih ⊢
      rw [List.append_assoc]
      exact ih

/-- Witness for C9: submit payloads 1 and 2, then let the worker execute
one; the executed list `[1]` plus the queue `[2]` is the submission order
`[1, 2]`. -/
theorem claim_C9_fifo_execution_witness :
    ExecutorReachable (⟨[2], [1], [1, 2]⟩ : ExecutorState Nat)
    ∧ (⟨[2], [1], [1, 2]⟩ : ExecutorState Nat).executed
        ++ (⟨[2], [1], [1, 2]⟩ : ExecutorState Nat).pending
      = (⟨[2], [1], [1, 2]⟩ : ExecutorState Nat).submitted :=
  have h1 : ExecutorStep Nat ⟨[], [], []⟩ ⟨[1], [], [1]⟩ :=
    ExecutorStep.submit 1 [] [] []
  have h2 : ExecutorStep Nat ⟨[1], [], [1]⟩ ⟨[1, 2], [], [1, 2]⟩ :=
    ExecutorStep.submit 2 [1] [] [1]
  have h3 : ExecutorStep Nat ⟨[1, 2], [], [1, 2]⟩ ⟨[2], [1], [1, 2]⟩ :=
    ExecutorStep.dequeue 1 [2] [] [1, 2]
  have hreach : ExecutorReachable (⟨[2], [1], [1, 2]⟩ : ExecutorState Nat) :=
    Relation.ReflTransGen.tail
      (Relation.ReflTransGen.tail (Relation.ReflTransGen.tail Relation.ReflTransGen.refl h1) h2)
      h3
  ⟨hreach, claim_C9_fifo_execution _ hreach⟩

/-! ## Claim C10 -/

theorem InMemory.deleteStore_found (st : Store) (k : String)
    (hnd : (st.map Prod.fst).Nodup) (h : (InMemory.lookup st k).isSome = true) :
    (InMemory.deleteStore st k).2 = 1
    ∧ InMemory.lookup (InMemory.deleteStore st k).1 k = none := by
  induction st with
  | nil => simp [InMemory.lookup] at h
  | cons p rest ih =>
    obtain ⟨k', e'⟩ := p
    rw [List.map_cons, List.nodup_cons] at hnd
    by_cases hk : k' = k
    · subst hk
      refine ⟨by simp [InMemory.deleteStore], ?_⟩
      simp only [InMemory.deleteStore, if_pos rfl]
      exact InMemory.lookup_eq_none_of_not_mem rest k' hnd.1
    · rw [InMemory.lookup, if_neg hk] at h
      obtain ⟨h1, h2⟩ := ih hnd.2 h
      constructor
      · simp only [InMemory.deleteStore, if_neg hk]
        exact h1
      · simp only [InMemory.deleteStore, if_neg hk, InMemory.lookup]
        exact h2

/-- Claim C10: on the in-memory backend, `delete(key)` on an entry whose
`expires_at` is already in the past physically removes the entry and
returns 1 — even though `get` and `exists` report the key as absent at the
same instant — because `delete` checks only physical presence, never
expiry. -/
theorem claim_C10_delete_ignores_expiry (st : Store) (now : Int) (k : String)
    (e : Entry) (t : Int) (hnd : (st.map Prod.fst).Nodup)
    (hl : InMemory.lookup st k = some e) (he : e.expires_at = some t) (ht : t < now) :
    (InMemory.delete st k).2 = 1
    ∧ InMemory.lookup (InMemory.delete st k).1 k = none
    ∧ InMemory.get st now k = none
    ∧ InMemory.exists? st now k = false := by
  have hexp : InMemory.is_expired e now = true := by
    simp [InMemory.is_expired, he, ht]
  have hdel := InMemory.deleteStore_found st k hnd (by simp [hl])
  exact ⟨hdel.1, hdel.2, by simp [InMemory.get, hl, hexp],
    by simp [InMemory.exists?, hl, hexp]⟩

/-- Witness for C10: an entry that expired at time 5, deleted at time 10. -/
theorem claim_C10_delete_ignores_expiry_witness :
    ((([("k", ⟨"v", 0, some 5, some 5⟩)] : Store).map Prod.fst).Nodup
      ∧ InMemory.lookup [("k", ⟨"v", 0, some 5, some 5⟩)] "k" = some ⟨"v", 0, some 5, some 5⟩
      ∧ (⟨"v", 0, some 5, some 5⟩ : Entry).expires_at = some 5
      ∧ (5 : Int) < 10)
    ∧ ((InMemory.delete [("k", ⟨"v", 0, some 5, some 5⟩)] "k").2 = 1
      ∧ InMemory.lookup (InMemory.delete [("k", ⟨"v", 0, some 5, some 5⟩)] "k").1 "k" = none
      ∧ InMemory.get [("k", ⟨"v", 0, some 5, some 5⟩)] 10 "k" = none
      ∧ InMemory.exists? [("k", ⟨"v", 0, some 5, some 5⟩)] 10 "k" = false) :=
  ⟨⟨by decide, by decide, rfl, by decide⟩,
   claim_C10_delete_ignores_expiry [("k", ⟨"v", 0, some 5, some 5⟩)] 10 "k"
     ⟨"v", 0, some 5, some 5⟩ 5 (by decide) (by decide) rfl (by decide)⟩

end Pycache
